import Mathlib

set_option autoImplicit false

/-!
Formal model of the core of the Collaborative-Whiteboard-Tool repository.

The development shallowly embeds the drawing data model
(`schema/drawingSchema.ts`, `lib/types.ts`), the geometry utilities and the
renderer (`lib/healper.ts`), the AI response validation (`lib/useAIDrawing.ts`)
and the canvas interaction handlers of the whiteboard component.  Canvas 2D
painting is modelled by an explicit context state plus a list of paint events
(newest first); a `clearRect` covering the whole canvas resets the event list,
so the event list is exactly the visible content painted since the last full
clear.  JavaScript numbers are modelled as rationals extended with the IEEE
special values `Infinity`, `-Infinity` and `NaN`.
-/

/-- JavaScript numbers as used by the whiteboard geometry: rationals plus the
IEEE special values `+Infinity`, `-Infinity`, `NaN`. -/
inductive XVal where
  | nan
  | pinf
  | ninf
  | num (q : ℚ)
  deriving DecidableEq, Repr

/-- JavaScript `Math.min` (NaN propagates, `-Infinity` absorbs,
`Infinity` is neutral). -/
def xmin : XVal → XVal → XVal
  | .nan, _ => .nan
  | _, .nan => .nan
  | .ninf, _ => .ninf
  | _, .ninf => .ninf
  | .pinf, b => b
  | a, .pinf => a
  | .num a, .num b => .num (min a b)

/-- JavaScript `Math.max` (NaN propagates, `Infinity` absorbs,
`-Infinity` is neutral). -/
def xmax : XVal → XVal → XVal
  | .nan, _ => .nan
  | _, .nan => .nan
  | .pinf, _ => .pinf
  | _, .pinf => .pinf
  | .ninf, b => b
  | a, .ninf => a
  | .num a, .num b => .num (max a b)

/-- JavaScript addition on extended numbers. -/
def xadd : XVal → XVal → XVal
  | .nan, _ => .nan
  | _, .nan => .nan
  | .pinf, .ninf => .nan
  | .ninf, .pinf => .nan
  | .pinf, _ => .pinf
  | _, .pinf => .pinf
  | .ninf, _ => .ninf
  | _, .ninf => .ninf
  | .num a, .num b => .num (a + b)

/-- JavaScript negation on extended numbers. -/
def xneg : XVal → XVal
  | .nan => .nan
  | .pinf => .ninf
  | .ninf => .pinf
  | .num a => .num (-a)

/-- JavaScript subtraction on extended numbers. -/
def xsub (a b : XVal) : XVal := xadd a (xneg b)

/-- JavaScript division by `2` on extended numbers. -/
def xhalf : XVal → XVal
  | .nan => .nan
  | .pinf => .pinf
  | .ninf => .ninf
  | .num q => .num (q / 2)

/-- JavaScript comparison `a <= b` (any comparison with NaN is false). -/
def xle : XVal → XVal → Bool
  | .nan, _ => false
  | _, .nan => false
  | .ninf, _ => true
  | _, .pinf => true
  | .pinf, _ => false
  | _, .ninf => false
  | .num a, .num b => decide (a ≤ b)

/-- JavaScript comparison `a >= b`. -/
def xge (a b : XVal) : Bool := xle b a

/-- Addition of a rational offset, as used by the AI placement translation. -/
def xaddQ (a : XVal) (o : ℚ) : XVal := xadd a (.num o)

/-- A point with plain finite coordinates (mouse positions, freehand paths). -/
structure Pt where
  x : ℚ
  y : ℚ
  deriving DecidableEq, Repr

/-- A point inside a drawing instruction (`points` array entries). -/
structure PtX where
  x : XVal
  y : XVal
  deriving DecidableEq, Repr

/-- Result of `getBoundingBox`: the `{minX, minY, maxX, maxY}` record. -/
structure BBox where
  minX : XVal
  minY : XVal
  maxX : XVal
  maxY : XVal
  deriving DecidableEq, Repr

/-- Result of `getFreehandBoundingBox`: always finite coordinates. -/
structure RatBox where
  minX : ℚ
  minY : ℚ
  maxX : ℚ
  maxY : ℚ
  deriving DecidableEq, Repr

/-- A finite box viewed as a JavaScript-number box. -/
def RatBox.toBBox (b : RatBox) : BBox :=
  ⟨.num b.minX, .num b.minY, .num b.maxX, .num b.maxY⟩

/-- The `type` discriminator of `DrawingInstructionSchema`
(`z.enum(["rect", "circle", "line", "text", "polygon", "erase"])`). -/
inductive InstrType where
  | rect
  | circle
  | line
  | text
  | polygon
  | erase
  deriving DecidableEq, Repr

/-- A drawing instruction (`DrawingInstructionSchema` of
`schema/drawingSchema.ts`): every geometry and style field is optional,
`id` is required, `selected` is optional.  An `Option` field with value
`none` models a JavaScript object on which the corresponding key is absent
(`"x" in inst` is false). -/
structure DrawingInstruction where
  type : InstrType
  x : Option XVal := none
  y : Option XVal := none
  width : Option XVal := none
  height : Option XVal := none
  radius : Option XVal := none
  x1 : Option XVal := none
  y1 : Option XVal := none
  x2 : Option XVal := none
  y2 : Option XVal := none
  fill : Option String := none
  stroke : Option String := none
  lineWidth : Option XVal := none
  text : Option String := none
  font : Option String := none
  points : Option (List PtX) := none
  id : String
  selected : Option Bool := none
  deriving DecidableEq, Repr

/-- The helper `safe(n) = n ?? 0` of `lib/healper.ts`. -/
def safe (n : Option XVal) : XVal := n.getD (.num 0)

/-- Freehand stroke style `{color, lineWidth}`. -/
structure PenStyle where
  color : String
  lineWidth : ℚ
  deriving DecidableEq, Repr

/-- A `{x, y, width, height}` rectangle (clear regions, selection box). -/
structure RectWH where
  x : ℚ
  y : ℚ
  width : ℚ
  height : ℚ
  deriving DecidableEq, Repr

/-- `FreehandAction` of `lib/types.ts`. -/
structure FreehandAction where
  id : String
  path : List Pt
  style : PenStyle
  selected : Option Bool := none
  deriving DecidableEq, Repr

/-- `EraseAction` of `lib/types.ts`.  The TypeScript type declares no
`selected` key; the extra optional field models the dynamic property that
`{...item, selected: b}` can attach to such an object at runtime, `none`
meaning the key is absent as in the declared type. -/
structure EraseAction where
  id : String
  clearRect : RectWH
  style : PenStyle
  selected : Option Bool := none
  deriving DecidableEq, Repr

/-- `DrawingAction = FreehandAction | EraseAction | DrawingInstruction`. -/
inductive DrawingAction where
  | freehand (f : FreehandAction)
  | erase (e : EraseAction)
  | instr (i : DrawingInstruction)
  deriving DecidableEq, Repr

/-- The value of `item.selected` together with key presence:
`none` when `"selected" in item` is false. -/
def DrawingAction.selectedField : DrawingAction → Option Bool
  | .freehand f => f.selected
  | .erase e => e.selected
  | .instr i => i.selected

/-- The coordinate keys that `getBoundingBox` inspects on an object
(`x`, `y`, `x1`, `y1`, `x2`, `y2`, `points`). -/
structure GeomView where
  x : Option XVal
  y : Option XVal
  x1 : Option XVal
  y1 : Option XVal
  x2 : Option XVal
  y2 : Option XVal
  points : Option (List PtX)
  deriving DecidableEq, Repr

/-- The coordinate keys of a `DrawingInstruction`. -/
def DrawingInstruction.geom (i : DrawingInstruction) : GeomView :=
  ⟨i.x, i.y, i.x1, i.y1, i.x2, i.y2, i.points⟩

/-- The coordinate keys of a `DrawingAction` as seen by the duck-typed
`getBoundingBox([item])` call: a `FreehandAction` carries a `path` key but
none of the inspected keys, an `EraseAction` carries a `clearRect` key but
none of the inspected keys, so both expose no coordinates. -/
def DrawingAction.geom : DrawingAction → GeomView
  | .freehand _ => ⟨none, none, none, none, none, none, none⟩
  | .erase _ => ⟨none, none, none, none, none, none, none⟩
  | .instr i => i.geom

/-- Fold one coordinate sample into the running box:
`minX = Math.min(minX, vx); minY = Math.min(minY, vy);
maxX = Math.max(maxX, vx); maxY = Math.max(maxY, vy)`. -/
def foldPt (b : BBox) (p : PtX) : BBox :=
  { b with
    minX := xmin b.minX p.x, minY := xmin b.minY p.y,
    maxX := xmax b.maxX p.x, maxY := xmax b.maxY p.y }

/-- One iteration of the `for (const inst of instructions)` loop of
`getBoundingBox`: fold `(safe x, safe y)` when both keys are present,
`(x1, y1)` when both are present, `(x2, y2)` when both are present, then
every entry of `points` when that key holds an array. -/
def foldGeom (b : BBox) (g : GeomView) : BBox :=
  let b := if g.x.isSome && g.y.isSome then foldPt b ⟨safe g.x, safe g.y⟩ else b
  let b := if g.x1.isSome && g.y1.isSome then foldPt b ⟨safe g.x1, safe g.y1⟩ else b
  let b := if g.x2.isSome && g.y2.isSome then foldPt b ⟨safe g.x2, safe g.y2⟩ else b
  match g.points with
  | some pts => pts.foldl foldPt b
  | none => b

/-- The initial accumulator of `getBoundingBox`:
`minX = minY = Infinity`, `maxX = maxY = -Infinity`. -/
def emptyBBox : BBox := ⟨.pinf, .pinf, .ninf, .ninf⟩

/-- `getBoundingBox` over the coordinate views of the scanned objects. -/
def getBBoxOfGeoms (gs : List GeomView) : BBox := gs.foldl foldGeom emptyBBox

/-- `getBoundingBox` of `lib/healper.ts`. -/
def getBoundingBox (instructions : List DrawingInstruction) : BBox :=
  getBBoxOfGeoms (instructions.map DrawingInstruction.geom)

/-- `isPointInBox` of `lib/healper.ts`:
`x >= box.minX && x <= box.maxX && y >= box.minY && y <= box.maxY`. -/
def isPointInBox (x y : ℚ) (box : BBox) : Bool :=
  xge (.num x) box.minX && xle (.num x) box.maxX &&
    xge (.num y) box.minY && xle (.num y) box.maxY

/-- `getFreehandBoundingBox` of `lib/healper.ts`: `{0,0,0,0}` on the empty
path, otherwise a min/max fold over the path started from the first point. -/
def getFreehandBoundingBox (path : List Pt) : RatBox :=
  match path with
  | [] => ⟨0, 0, 0, 0⟩
  | p0 :: _ =>
      path.foldl (fun b p =>
        { minX := if p.x < b.minX then p.x else b.minX
          minY := if p.y < b.minY then p.y else b.minY
          maxX := if p.x > b.maxX then p.x else b.maxX
          maxY := if p.y > b.maxY then p.y else b.maxY }) ⟨p0.x, p0.y, p0.x, p0.y⟩

/-- A canvas path command.  `arc` always stands for the full-circle arc
`arc(x, y, r, 0, Math.PI * 2)`, the only form the code uses. -/
inductive PathCmd where
  | moveTo (x y : XVal)
  | lineTo (x y : XVal)
  | arc (x y r : XVal)
  | close
  deriving DecidableEq, Repr

/-- One painting operation together with the context styles it was issued
under.  The visible raster state of the canvas is abstracted as the list of
paint events issued since the last covering clear. -/
inductive PaintEvent where
  | fillRectEv (x y w h : XVal) (fillStyle : String) (alpha : ℚ)
  | fillPathEv (path : List PathCmd) (fillStyle : String) (alpha : ℚ)
  | strokePathEv (path : List PathCmd) (strokeStyle : String)
      (lineWidth : XVal) (dash : List ℚ) (alpha : ℚ)
  | fillTextEv (s : String) (x y : XVal) (font fillStyle : String) (alpha : ℚ)
  | strokeRectEv (x y w h : XVal) (strokeStyle : String)
      (lineWidth : XVal) (dash : List ℚ) (alpha : ℚ)
  | clearRectEv (x y w h : ℚ)
  deriving DecidableEq, Repr

/-- The drawing-state snapshot pushed by `ctx.save()` (the current path is
not part of the saved state, per the canvas specification). -/
structure CtxSnapshot where
  fillStyle : String
  strokeStyle : String
  font : String
  lineWidth : XVal
  globalAlpha : ℚ
  lineDash : List ℚ
  deriving DecidableEq, Repr

/-- A 2D canvas context plus its raster surface.  `surface` lists the paint
events issued since the last covering clear, newest first. -/
structure CanvasState where
  canvasW : ℚ
  canvasH : ℚ
  fillStyle : String
  strokeStyle : String
  font : String
  lineWidth : XVal
  globalAlpha : ℚ
  lineDash : List ℚ
  path : List PathCmd
  saved : List CtxSnapshot
  surface : List PaintEvent
  deriving DecidableEq, Repr

/-- `ctx.beginPath()`. -/
def CanvasState.beginPath (c : CanvasState) : CanvasState := { c with path := [] }

/-- `ctx.moveTo(x, y)`. -/
def CanvasState.moveTo (c : CanvasState) (x y : XVal) : CanvasState :=
  { c with path := c.path ++ [.moveTo x y] }

/-- `ctx.lineTo(x, y)`. -/
def CanvasState.lineTo (c : CanvasState) (x y : XVal) : CanvasState :=
  { c with path := c.path ++ [.lineTo x y] }

/-- `ctx.arc(x, y, r, 0, Math.PI * 2)`. -/
def CanvasState.arc (c : CanvasState) (x y r : XVal) : CanvasState :=
  { c with path := c.path ++ [.arc x y r] }

/-- `ctx.closePath()`. -/
def CanvasState.closePath (c : CanvasState) : CanvasState :=
  { c with path := c.path ++ [.close] }

/-- `ctx.fillStyle = s`. -/
def CanvasState.setFillStyle (c : CanvasState) (s : String) : CanvasState :=
  { c with fillStyle := s }

/-- `ctx.strokeStyle = s`. -/
def CanvasState.setStrokeStyle (c : CanvasState) (s : String) : CanvasState :=
  { c with strokeStyle := s }

/-- `ctx.font = s`. -/
def CanvasState.setFont (c : CanvasState) (s : String) : CanvasState :=
  { c with font := s }

/-- `ctx.lineWidth = w`. -/
def CanvasState.setLineWidth (c : CanvasState) (w : XVal) : CanvasState :=
  { c with lineWidth := w }

/-- `ctx.setLineDash(ds)`. -/
def CanvasState.setLineDash (c : CanvasState) (ds : List ℚ) : CanvasState :=
  { c with lineDash := ds }

/-- `ctx.fillRect(x, y, w, h)`. -/
def CanvasState.fillRect (c : CanvasState) (x y w h : XVal) : CanvasState :=
  { c with surface := .fillRectEv x y w h c.fillStyle c.globalAlpha :: c.surface }

/-- `ctx.fill()`. -/
def CanvasState.fill (c : CanvasState) : CanvasState :=
  { c with surface := .fillPathEv c.path c.fillStyle c.globalAlpha :: c.surface }

/-- `ctx.stroke()`. -/
def CanvasState.stroke (c : CanvasState) : CanvasState :=
  { c with surface :=
      .strokePathEv c.path c.strokeStyle c.lineWidth c.lineDash c.globalAlpha :: c.surface }

/-- `ctx.fillText(s, x, y)`. -/
def CanvasState.fillText (c : CanvasState) (s : String) (x y : XVal) : CanvasState :=
  { c with surface := .fillTextEv s x y c.font c.fillStyle c.globalAlpha :: c.surface }

/-- `ctx.strokeRect(x, y, w, h)`. -/
def CanvasState.strokeRect (c : CanvasState) (x y w h : XVal) : CanvasState :=
  { c with surface :=
      .strokeRectEv x y w h c.strokeStyle c.lineWidth c.lineDash c.globalAlpha :: c.surface }

/-- `ctx.clearRect(x, y, w, h)`: a clear whose region covers the whole
canvas resets the visible raster state; any other clear is recorded as a
clearing paint event. -/
def CanvasState.clearRect (c : CanvasState) (x y w h : ℚ) : CanvasState :=
  if x ≤ 0 ∧ y ≤ 0 ∧ c.canvasW ≤ x + w ∧ c.canvasH ≤ y + h then
    { c with surface := [] }
  else
    { c with surface := .clearRectEv x y w h :: c.surface }

/-- `ctx.save()`. -/
def CanvasState.save (c : CanvasState) : CanvasState :=
  { c with saved :=
      ⟨c.fillStyle, c.strokeStyle, c.font, c.lineWidth, c.globalAlpha, c.lineDash⟩ :: c.saved }

/-- `ctx.restore()` (a no-op on an empty stack). -/
def CanvasState.restore (c : CanvasState) : CanvasState :=
  match c.saved with
  | [] => c
  | s :: rest =>
      { c with
        fillStyle := s.fillStyle, strokeStyle := s.strokeStyle, font := s.font,
        lineWidth := s.lineWidth, globalAlpha := s.globalAlpha,
        lineDash := s.lineDash, saved := rest }

/-- JavaScript `o || d` for an optional string field: the empty string is
falsy, an absent key is falsy. -/
def orDefault (o : Option String) (d : String) : String :=
  match o with
  | some s => if s.isEmpty then d else s
  | none => d

/-- One iteration of the `for (const item of instructions)` loop of
`drawFromJSON` in `lib/healper.ts`: the `switch (item.type)` dispatch.
There is no `erase` case in the source switch, so an `erase` instruction
falls through to the empty `default` branch. -/
def drawInstr (c : CanvasState) (item : DrawingInstruction) : CanvasState :=
  match item.type with
  | .rect =>
      let c := c.setFillStyle (orDefault item.fill "black")
      c.fillRect (safe item.x) (safe item.y) (safe item.width) (safe item.height)
  | .circle =>
      let c := c.setFillStyle (orDefault item.fill "black")
      let c := c.beginPath
      let c := c.arc (safe item.x) (safe item.y) (safe item.radius)
      c.fill
  | .line =>
      let c := c.setStrokeStyle (orDefault item.stroke "black")
      let c := c.setLineWidth (safe item.lineWidth)
      let c := c.beginPath
      let c := c.moveTo (safe item.x1) (safe item.y1)
      let c := c.lineTo (safe item.x2) (safe item.y2)
      c.stroke
  | .text =>
      let c := c.setFillStyle (orDefault item.fill "black")
      let c := c.setFont (orDefault item.font "16px sans-serif")
      c.fillText (orDefault item.text "") (safe item.x) (safe item.y)
  | .polygon =>
      match item.points with
      | some pts =>
          if 2 ≤ pts.length then
            match pts with
            | [] => c
            | p0 :: rest =>
                let c := c.beginPath
                let c := c.moveTo p0.x p0.y
                let c := rest.foldl (fun c p => c.lineTo p.x p.y) c
                let c := c.closePath
                let c := match item.fill with
                  | some s => if s.isEmpty then c else (c.setFillStyle s).fill
                  | none => c
                match item.stroke with
                | some s =>
                    if s.isEmpty then c
                    else (((c.setStrokeStyle s).setLineWidth (safe item.lineWidth)).stroke)
                | none => c
          else c
      | none => c
  | .erase => c

/-- `drawFromJSON` of `lib/healper.ts`. -/
def drawFromJSON (c : CanvasState) (instructions : List DrawingInstruction) : CanvasState :=
  instructions.foldl drawInstr c

/-- An `EraseAction` object as `drawFromJSON` sees it through the optional
`DrawingInstruction` accessors: the `type`, `id` and dynamic `selected`
keys are present, every inspected geometry and style key is absent. -/
def eraseView (e : EraseAction) : DrawingInstruction :=
  { type := .erase, id := e.id, selected := e.selected }

/-- The bounding box drawn around a selected action by the renderer and used
by the selection logic: the freehand path box for a freehand action,
`getBoundingBox([item])` otherwise. -/
def DrawingAction.renderBox : DrawingAction → BBox
  | .freehand f => (getFreehandBoundingBox f.path).toBBox
  | a => getBBoxOfGeoms [a.geom]

/-- `safe(firstPoint?.x)` for the head of a freehand path. -/
def headXD (path : List Pt) : ℚ :=
  match path with
  | [] => 0
  | p :: _ => p.x

/-- `safe(firstPoint?.y)` for the head of a freehand path. -/
def headYD (path : List Pt) : ℚ :=
  match path with
  | [] => 0
  | p :: _ => p.y

/-- First half of the `for (const action of drawingAction)` loop body of
`reDrawPreviousData` ("1) DRAW THE SHAPE"): stroke the freehand polyline or
dispatch to `drawFromJSON([action])`. -/
def drawShapeOf (c : CanvasState) (action : DrawingAction) : CanvasState :=
  match action with
  | .freehand f =>
      let c := c.beginPath
      let c := c.setStrokeStyle f.style.color
      let c := c.setLineWidth (.num f.style.lineWidth)
      let c := c.moveTo (.num (headXD f.path)) (.num (headYD f.path))
      let c := f.path.tail.foldl (fun c p => c.lineTo (.num p.x) (.num p.y)) c
      let c := c.stroke
      c.closePath
  | .erase e => drawFromJSON c [eraseView e]
  | .instr i => drawFromJSON c [i]

/-- Second half of the loop body ("2) IF SELECTED, DRAW A DASHED BOUNDING
BOX"): when `action.selected` is truthy, stroke the dashed `[5, 3]` bounding
box around `action` inside a `save`/`restore` pair. -/
def drawSelBox (c : CanvasState) (action : DrawingAction) : CanvasState :=
  if action.selectedField.getD false then
    let box := action.renderBox
    let c := c.save
    let c := c.setLineDash [5, 3]
    let c := c.setStrokeStyle "black"
    let c := c.setLineWidth (.num 1)
    let c := c.strokeRect box.minX box.minY
      (xsub box.maxX box.minX) (xsub box.maxY box.minY)
    c.restore
  else c

/-- One iteration of the `for (const action of drawingAction)` loop of
`reDrawPreviousData`: draw the shape, then the selection box if any. -/
def reDrawStep (c : CanvasState) (action : DrawingAction) : CanvasState :=
  drawSelBox (drawShapeOf c action) action

/-- `reDrawPreviousData` of `lib/healper.ts`: clear the full canvas, then
repaint every stored action in order. -/
def reDrawPreviousData (c : CanvasState) (drawingAction : List DrawingAction) : CanvasState :=
  let c := c.clearRect 0 0 c.canvasW c.canvasH
  drawingAction.foldl reDrawStep c

/-- The canvas path built by the freehand branch of `reDrawPreviousData` at
the moment it strokes. -/
def freehandStrokePath (path : List Pt) : List PathCmd :=
  PathCmd.moveTo (.num (headXD path)) (.num (headYD path)) ::
    path.tail.map (fun p => PathCmd.lineTo (.num p.x) (.num p.y))

/-- The canvas path built by the polygon branch of `drawFromJSON` at
the moment it fills or strokes. -/
def polyPath (p0 : PtX) (rest : List PtX) : List PathCmd :=
  PathCmd.moveTo p0.x p0.y ::
    (rest.map (fun p => PathCmd.lineTo p.x p.y) ++ [PathCmd.close])

/-- The paint events (newest first) that one `drawFromJSON` iteration emits,
as a function of the instruction and of the only two pieces of ambient
context state it reads at painting time: the current line-dash pattern and
the global alpha. -/
def instrEvents (dash : List ℚ) (alpha : ℚ) (item : DrawingInstruction) :
    List PaintEvent :=
  match item.type with
  | .rect =>
      [.fillRectEv (safe item.x) (safe item.y) (safe item.width) (safe item.height)
        (orDefault item.fill "black") alpha]
  | .circle =>
      [.fillPathEv [.arc (safe item.x) (safe item.y) (safe item.radius)]
        (orDefault item.fill "black") alpha]
  | .line =>
      [.strokePathEv [.moveTo (safe item.x1) (safe item.y1),
          .lineTo (safe item.x2) (safe item.y2)]
        (orDefault item.stroke "black") (safe item.lineWidth) dash alpha]
  | .text =>
      [.fillTextEv (orDefault item.text "") (safe item.x) (safe item.y)
        (orDefault item.font "16px sans-serif") (orDefault item.fill "black") alpha]
  | .polygon =>
      match item.points with
      | some pts =>
          if 2 ≤ pts.length then
            match pts with
            | [] => []
            | p0 :: rest =>
                (match item.stroke with
                 | some s =>
                     if s.isEmpty then []
                     else [.strokePathEv (polyPath p0 rest) s (safe item.lineWidth) dash alpha]
                 | none => []) ++
                (match item.fill with
                 | some s =>
                     if s.isEmpty then []
                     else [.fillPathEv (polyPath p0 rest) s alpha]
                 | none => [])
          else []
      | none => []
  | .erase => []

/-- The paint events emitted by the shape half of a `reDrawPreviousData`
iteration. -/
def shapeEvents (dash : List ℚ) (alpha : ℚ) : DrawingAction → List PaintEvent
  | .freehand f =>
      [.strokePathEv (freehandStrokePath f.path) f.style.color
        (.num f.style.lineWidth) dash alpha]
  | .erase e => instrEvents dash alpha (eraseView e)
  | .instr i => instrEvents dash alpha i

/-- The paint events emitted by the selection-box half of a
`reDrawPreviousData` iteration. -/
def selEvents (alpha : ℚ) (action : DrawingAction) : List PaintEvent :=
  if action.selectedField.getD false then
    [.strokeRectEv action.renderBox.minX action.renderBox.minY
      (xsub action.renderBox.maxX action.renderBox.minX)
      (xsub action.renderBox.maxY action.renderBox.minY)
      "black" (.num 1) [5, 3] alpha]
  else []

/-- All paint events of one `reDrawPreviousData` iteration. -/
def stepEvents (dash : List ℚ) (alpha : ℚ) (action : DrawingAction) : List PaintEvent :=
  selEvents alpha action ++ shapeEvents dash alpha action

/-- All paint events of a full repaint of an action list, newest first. -/
def actsEvents (dash : List ℚ) (alpha : ℚ) : List DrawingAction → List PaintEvent
  | [] => []
  | a :: rest => actsEvents dash alpha rest ++ stepEvents dash alpha a

/-- `DrawingMode` of `lib/types.ts`. -/
inductive DrawingMode where
  | draw
  | erase
  | select
  | none
  deriving DecidableEq, Repr

/-- The reactive state of the `WhiteboardCanvas` component that the
interaction handlers read and write, plus the canvas context/surface and the
`error` state of the `useAIDrawing` hook. -/
structure WhiteboardState where
  mode : DrawingMode
  drawingEnabled : Bool
  drawing : Bool
  pendingAIInstructions : Option (List DrawingInstruction)
  previewPosition : Option Pt
  previewVisible : Bool
  drawingAction : List DrawingAction
  currentStyle : PenStyle
  currentPath : List Pt
  selectionBox : Option RectWH
  selectStart : Option Pt
  selectEnd : Option Pt
  isSelecting : Bool
  aiError : Option String
  canvas : CanvasState
  deriving DecidableEq, Repr

/-- `startDrawing`: begin a freehand stroke at the pointer position unless
freehand drawing is disabled. -/
def startDrawing (st : WhiteboardState) (pos : Pt) : WhiteboardState :=
  if !st.drawingEnabled then st
  else
    { st with
      canvas := (st.canvas.beginPath).moveTo (.num pos.x) (.num pos.y),
      drawing := true,
      currentPath := [pos] }

/-- `handleMouseDown`: with a pending AI preview do nothing, otherwise start
a freehand stroke in draw mode or a selection drag in select mode. -/
def handleMouseDown (st : WhiteboardState) (pos : Pt) : WhiteboardState :=
  if st.pendingAIInstructions.isSome then st
  else
    match st.mode with
    | .draw => startDrawing st pos
    | .select =>
        { st with selectStart := some pos, selectEnd := some pos, isSelecting := true }
    | _ => st

/-- The containment test of `applySelectionBox`:
`box.minX >= minX && box.maxX <= maxX && box.minY >= minY && box.maxY <= maxY`. -/
def boxInSelection (box : BBox) (minX minY maxX maxY : ℚ) : Bool :=
  xge box.minX (.num minX) && xle box.maxX (.num maxX) &&
    xge box.minY (.num minY) && xle box.maxY (.num maxY)

/-- `{...item, selected: b}`: attach the dynamic `selected` property. -/
def DrawingAction.setSelected : DrawingAction → Bool → DrawingAction
  | .freehand f, b => .freehand { f with selected := some b }
  | .erase e, b => .erase { e with selected := some b }
  | .instr i, b => .instr { i with selected := some b }

/-- `applySelectionBox(start, end)` of the whiteboard component: normalise the
drag corners, then mark every action whose bounding box (freehand path box,
or `getBoundingBox([item])` otherwise) is fully inside the rectangle. -/
def applySelectionBox (st : WhiteboardState) (start finish : Pt) : WhiteboardState :=
  let minX := min start.x finish.x
  let maxX := max start.x finish.x
  let minY := min start.y finish.y
  let maxY := max start.y finish.y
  { st with
    drawingAction := st.drawingAction.map (fun item =>
      item.setSelected (boxInSelection item.renderBox minX minY maxX maxY)) }

/-- One instruction of `placeAIInstructions`: copy, shift every present
coordinate key by the offsets, give a fresh id when `!s.id` (empty string),
and set `selected = false`.  The source mutates the copied fields one by one;
the fields are independent, so the simultaneous update is the same map. -/
def shiftInst (offsetX offsetY : XVal) (freshId : String)
    (inst : DrawingInstruction) : DrawingInstruction :=
  { inst with
    x := if inst.x.isSome then some (xadd (safe inst.x) offsetX) else inst.x,
    y := if inst.y.isSome then some (xadd (safe inst.y) offsetY) else inst.y,
    x1 := if inst.x1.isSome then some (xadd (safe inst.x1) offsetX) else inst.x1,
    y1 := if inst.y1.isSome then some (xadd (safe inst.y1) offsetY) else inst.y1,
    x2 := if inst.x2.isSome then some (xadd (safe inst.x2) offsetX) else inst.x2,
    y2 := if inst.y2.isSome then some (xadd (safe inst.y2) offsetY) else inst.y2,
    points := match inst.points with
      | some pts => some (pts.map (fun p => ⟨xadd p.x offsetX, xadd p.y offsetY⟩))
      | none => inst.points,
    id := if inst.id.isEmpty then freshId else inst.id,
    selected := some false }

/-- The `pendingAIInstructions.map(...)` of `placeAIInstructions`, with the
per-instruction `crypto.randomUUID()` calls modelled by a supply of fresh
ids indexed by position. -/
def placeBatch (offsetX offsetY : XVal) (freshIds : ℕ → String) :
    ℕ → List DrawingInstruction → List DrawingInstruction
  | _, [] => []
  | k, inst :: rest =>
      shiftInst offsetX offsetY (freshIds k) inst ::
        placeBatch offsetX offsetY freshIds (k + 1) rest

/-- The shifted batch committed by `placeAIInstructions` at click point
`pos`: every instruction translated by the offset taking the bounding-box
center of the pending batch to `pos`. -/
def placedBatch (pending : List DrawingInstruction) (pos : Pt)
    (freshIds : ℕ → String) : List DrawingInstruction :=
  let box := getBoundingBox pending
  let centerX := xhalf (xadd box.minX box.maxX)
  let centerY := xhalf (xadd box.minY box.maxY)
  let offsetX := xsub (.num pos.x) centerX
  let offsetY := xsub (.num pos.y) centerY
  placeBatch offsetX offsetY freshIds 0 pending

/-- `placeAIInstructions`: commit the pending AI batch at the click point,
append the shifted instructions to the action list, repaint, and leave the
preview state. -/
def placeAIInstructions (st : WhiteboardState) (pos : Pt)
    (freshIds : ℕ → String) : WhiteboardState :=
  match st.pendingAIInstructions with
  | none => st
  | some pending =>
      let shifted := placedBatch pending pos freshIds
      let updated := st.drawingAction ++ shifted.map DrawingAction.instr
      { st with
        drawingAction := updated,
        canvas := reDrawPreviousData
          (st.canvas.clearRect 0 0 st.canvas.canvasW st.canvas.canvasH) updated,
        pendingAIInstructions := none,
        previewPosition := none,
        previewVisible := false,
        drawingEnabled := true }

/-- JavaScript truthiness of a number (`0` and `NaN` are falsy). -/
def truthyNum (v : XVal) : Bool :=
  match v with
  | .nan => false
  | .num q => decide (q ≠ 0)
  | _ => true

/-- JavaScript `o || d` for an optional numeric field. -/
def numOr (o : Option XVal) (d : XVal) : XVal :=
  match o with
  | some v => if truthyNum v then v else d
  | none => d

/-- One case of the private `drawFromJSON` of `lib/useAIDrawing.ts` (the
immediate-draw variant used right after a generation response): only `rect`,
`circle` and `line` are painted, everything else only logs a warning. -/
def aiDrawInstr (c : CanvasState) (item : DrawingInstruction) : CanvasState :=
  match item.type with
  | .rect =>
      let c := c.setFillStyle (orDefault item.fill "black")
      c.fillRect (numOr item.x (.num 0)) (numOr item.y (.num 0))
        (numOr item.width (.num 0)) (numOr item.height (.num 0))
  | .circle =>
      let c := c.setFillStyle (orDefault item.fill "black")
      let c := c.beginPath
      let c := c.arc (numOr item.x (.num 0)) (numOr item.y (.num 0))
        (numOr item.radius (.num 0))
      c.fill
  | .line =>
      let c := c.setStrokeStyle (orDefault item.stroke "black")
      let c := c.setLineWidth (numOr item.lineWidth (.num 1))
      let c := c.beginPath
      let c := c.moveTo (numOr item.x1 (.num 0)) (numOr item.y1 (.num 0))
      let c := c.lineTo (numOr item.x2 (.num 0)) (numOr item.y2 (.num 0))
      c.stroke
  | _ => c

/-- The private `drawFromJSON` of `lib/useAIDrawing.ts`. -/
def aiDrawFromJSON (c : CanvasState) (instructions : List DrawingInstruction) : CanvasState :=
  instructions.foldl aiDrawInstr c

/-- The generation response as the client sees it: `some l` when the parsed
body carries an `instructions` array `l` (`Array.isArray` succeeds — note an
empty array is a truthy value that passes the `!data?.instructions` check),
`none` when the field is absent or not an array, or the request itself
failed.  These are exactly the cases in which `generateDrawing` throws and
returns `null` with `error` set. -/
def generateDrawingResult (resp : Option (List DrawingInstruction)) :
    Except String (List DrawingInstruction) :=
  match resp with
  | none => .error "No valid instructions were returned."
  | some l => .ok l

/-- `handleAIDrawing` composed with the `generateDrawing` call it awaits:
on a validated response the instructions are immediately painted when a
selection crop was sent along (the hook receives `ctx` only in that case),
stored as the pending preview and the preview is made visible; on a failed
validation only the hook error is set.  In both cases freehand drawing is
disabled afterwards. -/
def handleAIDrawing (st : WhiteboardState)
    (resp : Option (List DrawingInstruction)) : WhiteboardState :=
  match generateDrawingResult resp with
  | .error msg => { st with aiError := some msg, drawingEnabled := false }
  | .ok instructions =>
      let st := if st.selectionBox.isSome then
          { st with canvas := aiDrawFromJSON st.canvas instructions }
        else st
      { st with
        aiError := Option.none,
        pendingAIInstructions := some instructions,
        previewVisible := true,
        drawingEnabled := false }

/-- `undoDrawing`: drop the last action (`pop` on a copy), repaint, and
discard any pending AI preview. -/
def undoDrawing (st : WhiteboardState) : WhiteboardState :=
  let newActions := st.drawingAction.dropLast
  { st with
    drawingAction := newActions,
    canvas := reDrawPreviousData
      (st.canvas.clearRect 0 0 st.canvas.canvasW st.canvas.canvasH) newActions,
    pendingAIInstructions := none,
    previewPosition := none,
    previewVisible := false }

/-- `handleDeleteSelected`: keep exactly the actions with
`"selected" in item && !item.selected`. -/
def handleDeleteSelected (st : WhiteboardState) : WhiteboardState :=
  { st with
    drawingAction := st.drawingAction.filter (fun item =>
      match item.selectedField with
      | some b => !b
      | none => false) }

/-- A box translated by a finite offset on each axis. -/
def translateBox (b : BBox) (ox oy : ℚ) : BBox :=
  ⟨xaddQ b.minX ox, xaddQ b.minY oy, xaddQ b.maxX ox, xaddQ b.maxY oy⟩

/-- A coordinate view translated by a finite offset on each axis, key
presence unchanged. -/
def translateGeom (g : GeomView) (ox oy : ℚ) : GeomView :=
  ⟨g.x.map (fun v => xaddQ v ox), g.y.map (fun v => xaddQ v oy),
   g.x1.map (fun v => xaddQ v ox), g.y1.map (fun v => xaddQ v oy),
   g.x2.map (fun v => xaddQ v ox), g.y2.map (fun v => xaddQ v oy),
   g.points.map (fun pts => pts.map (fun p => ⟨xaddQ p.x ox, xaddQ p.y oy⟩))⟩

/-- A canvas context in its initial configuration, sized like the default
whiteboard canvas. -/
def initCanvas : CanvasState :=
  { canvasW := 900, canvasH := 500, fillStyle := "#000000", strokeStyle := "#000000",
    font := "10px sans-serif", lineWidth := .num 1, globalAlpha := 1,
    lineDash := [], path := [], saved := [], surface := [] }

/-- The initial component state (`useState` initialisers of the whiteboard
component). -/
def initState : WhiteboardState :=
  { mode := .draw, drawingEnabled := true, drawing := false,
    pendingAIInstructions := none, previewPosition := none, previewVisible := true,
    drawingAction := [], currentStyle := ⟨"black", 3⟩, currentPath := [],
    selectionBox := none, selectStart := none, selectEnd := none,
    isSelecting := false, aiError := none, canvas := initCanvas }

/-- The rectangle instruction of the spec example:
`{type:"rect", x:10, y:10, width:20, height:30, id:"a"}`. -/
def c1Rect : DrawingInstruction :=
  { type := .rect, x := some (.num 10), y := some (.num 10),
    width := some (.num 20), height := some (.num 30), id := "a" }

/-- A rectangle instruction covering `[0,50] × [0,50]`. -/
def c2Rect : DrawingInstruction :=
  { type := .rect, x := some (.num 0), y := some (.num 0),
    width := some (.num 50), height := some (.num 50), id := "r1" }

/-- An erase action whose `clearRect` overlaps the rectangle above. -/
def c2Erase : EraseAction :=
  { id := "e1", clearRect := ⟨10, 10, 20, 20⟩, style := ⟨"black", 3⟩ }

/-- A concrete freehand stroke whose path box is `[10,20] × [10,30]`. -/
def c5Freehand : FreehandAction :=
  { id := "f1", path := [⟨10, 10⟩, ⟨20, 30⟩], style := ⟨"black", 3⟩,
    selected := some false }

/-- The full-canvas `ctx.clearRect(0, 0, ctx.canvas.width, ctx.canvas.height)`
call always resets the visible raster state. -/
theorem clearRect_full (c : CanvasState) :
    c.clearRect 0 0 c.canvasW c.canvasH = { c with surface := [] } := by
  unfold CanvasState.clearRect
  rw [if_pos]
  exact ⟨le_refl 0, le_refl 0, by rw [zero_add], by rw [zero_add]⟩

/-- C1 counterexample: the bounding box of the rectangle instruction
`{type:"rect", x:10, y:10, width:20, height:30, id:"a"}` is not
`{minX:10, minY:10, maxX:30, maxY:40}` — the fold never extends the box to
`x + width` and `y + height`. -/
theorem c1_rect_box_counterexample :
    getBoundingBox [c1Rect] ≠
      { minX := .num 10, minY := .num 10, maxX := .num 30, maxY := .num 40 } := by
  decide

/-- C1 amended: on the same input the bounding-box computation returns
`{minX:10, minY:10, maxX:10, maxY:10}` — only the `(x, y)` origin is folded,
and the `width` and `height` fields never influence the result of
`getBoundingBox` on any instruction. -/
theorem c1_rect_box_amended :
    getBoundingBox [c1Rect] =
      { minX := .num 10, minY := .num 10, maxX := .num 10, maxY := .num 10 }
    ∧ ∀ (i : DrawingInstruction) (w h : Option XVal),
        getBoundingBox [{ i with width := w, height := h }] = getBoundingBox [i] := by
  refine ⟨by decide, fun i w h => ?_⟩
  cases i
  rfl

/-- C9: `getFreehandBoundingBox([])` is `{0,0,0,0}` while `getBoundingBox`
returns `{Infinity, Infinity, -Infinity, -Infinity}` on the empty list and,
more generally, on any instruction list that carries none of the inspected
coordinate keys. -/
theorem c9_empty_box_conventions :
    getFreehandBoundingBox [] = ⟨0, 0, 0, 0⟩
    ∧ getBoundingBox [] = ⟨.pinf, .pinf, .ninf, .ninf⟩
    ∧ ∀ insts : List DrawingInstruction,
        (∀ i ∈ insts, i.x = none ∧ i.y = none ∧ i.x1 = none ∧ i.y1 = none
          ∧ i.x2 = none ∧ i.y2 = none ∧ i.points = none) →
        getBoundingBox insts = ⟨.pinf, .pinf, .ninf, .ninf⟩ := by
  refine ⟨rfl, rfl, fun insts h => ?_⟩
  induction insts with
  | nil => rfl
  | cons i rest ih =>
      obtain ⟨hx, hy, hx1, hy1, hx2, hy2, hpts⟩ := h i (List.mem_cons_self i rest)
      have hrest := ih (fun j hj => h j (List.mem_cons_of_mem i hj))
      unfold getBoundingBox getBBoxOfGeoms at hrest ⊢
      simp only [List.map_cons, List.foldl_cons]
      have hstep : foldGeom emptyBBox i.geom = emptyBBox := by
        simp [foldGeom, DrawingInstruction.geom, hx, hy, hx1, hy1, hx2, hy2, hpts]
      rw [hstep]
      exact hrest

/-- C9 witness: a coordinate-free `erase` instruction evaluates to the
infinite empty box. -/
theorem c9_empty_box_conventions_witness :
    getBoundingBox [{ type := .erase, id := "e" }] = ⟨.pinf, .pinf, .ninf, .ninf⟩ :=
  c9_empty_box_conventions.2.2 [{ type := .erase, id := "e" }]
    (by
      intro i hi
      simp only [List.mem_singleton] at hi
      subst hi
      exact ⟨rfl, rfl, rfl, rfl, rfl, rfl, rfl⟩)

/-- C10: while an AI preview is pending, a pointer-down event changes
nothing at all — in particular it starts neither a freehand stroke nor a
selection drag, in either mode. -/
theorem c10_mousedown_noop_while_pending (st : WhiteboardState) (pos : Pt)
    (h : st.pendingAIInstructions.isSome) :
    handleMouseDown st pos = st := by
  simp [handleMouseDown, h]

/-- C10 witness: pointer-down at `(5, 5)` with a pending (empty) preview
batch leaves the state unchanged. -/
theorem c10_mousedown_noop_while_pending_witness :
    handleMouseDown { initState with pendingAIInstructions := some [] } ⟨5, 5⟩
      = { initState with pendingAIInstructions := some [] } :=
  c10_mousedown_noop_while_pending _ _ rfl

/-- C6: undo removes exactly the most recently appended action and keeps
the earlier ones in order, is a no-op on an empty list, and unconditionally
discards any pending AI preview. -/
theorem c6_undo_spec (st : WhiteboardState) :
    (undoDrawing st).drawingAction = st.drawingAction.dropLast
    ∧ (∀ (l : List DrawingAction) (a : DrawingAction),
        st.drawingAction = l ++ [a] → (undoDrawing st).drawingAction = l)
    ∧ (st.drawingAction = [] → (undoDrawing st).drawingAction = [])
    ∧ (undoDrawing st).pendingAIInstructions = none
    ∧ (undoDrawing st).previewPosition = none
    ∧ (undoDrawing st).previewVisible = false := by
  refine ⟨rfl, fun l a h => ?_, fun h => ?_, rfl, rfl, rfl⟩
  · simp [undoDrawing, h]
  · simp [undoDrawing, h]

/-- C6 witness: with two committed actions and a pending preview, undo keeps
exactly the first action and clears the preview. -/
theorem c6_undo_spec_witness :
    (undoDrawing { initState with
        drawingAction := [.instr c1Rect, .instr c2Rect],
        pendingAIInstructions := some [c1Rect] }).drawingAction = [.instr c1Rect]
    ∧ (undoDrawing { initState with
        drawingAction := [.instr c1Rect, .instr c2Rect],
        pendingAIInstructions := some [c1Rect] }).pendingAIInstructions = none :=
  ⟨(c6_undo_spec _).2.1 [.instr c1Rect] (.instr c2Rect) rfl, (c6_undo_spec _).2.2.2.1⟩

/-- C3 counterexample: an action that carries no `selected` field at all —
here an `EraseAction`, whose declared type has no such key — is removed by
delete-selected even though its `selected` flag is not `true`; the claim
says every such action is retained. -/
theorem c3_delete_selected_counterexample :
    (handleDeleteSelected { initState with
        drawingAction := [.erase c2Erase] }).drawingAction = []
    ∧ (DrawingAction.erase c2Erase).selectedField ≠ some true := by
  exact ⟨rfl, by decide⟩

/-- C3 amended: delete-selected retains exactly the actions whose `selected`
key is present and `false`; both the actions with `selected = true` and the
actions lacking the key altogether are removed.  Selecting every action
(in particular the only one) and deleting yields the empty list. -/
theorem c3_delete_selected_amended (st : WhiteboardState) :
    (handleDeleteSelected st).drawingAction
      = st.drawingAction.filter (fun a => a.selectedField == some false)
    ∧ ((∀ a ∈ st.drawingAction, a.selectedField = some true) →
        (handleDeleteSelected st).drawingAction = []) := by
  have hcongr : (handleDeleteSelected st).drawingAction
      = st.drawingAction.filter (fun a => a.selectedField == some false) := by
    simp only [handleDeleteSelected]
    refine List.filter_congr (fun a _ => ?_)
    cases h : a.selectedField with
    | none => rfl
    | some b => cases b <;> rfl
  refine ⟨hcongr, fun hall => ?_⟩
  rw [hcongr]
  rw [List.filter_eq_nil_iff]
  intro a ha
  rw [hall a ha]
  decide

/-- C3 witness: deleting after selecting the only action empties the list. -/
theorem c3_delete_selected_amended_witness :
    (handleDeleteSelected { initState with
        drawingAction := [(DrawingAction.instr c1Rect).setSelected true] }).drawingAction
      = [] :=
  (c3_delete_selected_amended _).2
    (by
      intro a ha
      simp only [List.mem_singleton] at ha
      subst ha
      rfl)

/-- C7 counterexample: a response carrying an empty `instructions` array is
not treated as an error — the empty array passes the `!data?.instructions`
truthiness check — and the controller enters the AI-preview state with the
empty batch, with no visible error message. -/
theorem c7_empty_instructions_counterexample :
    (handleAIDrawing initState (some [])).pendingAIInstructions = some []
    ∧ (handleAIDrawing initState (some [])).aiError = none
    ∧ (handleAIDrawing initState (some [])).previewVisible = true := by
  exact ⟨rfl, rfl, rfl⟩

/-- C7 amended: only an absent (or non-array) `instructions` field is
treated as a validation error — a visible error message is produced and the
preview state is not entered, though freehand drawing is still disabled —
while any present array, including the empty one, is accepted and enters the
preview-pending state with the returned batch and no error. -/
theorem c7_validation_amended (st : WhiteboardState)
    (resp : Option (List DrawingInstruction)) :
    (resp = none →
      (handleAIDrawing st resp).aiError = some "No valid instructions were returned."
      ∧ (handleAIDrawing st resp).pendingAIInstructions = st.pendingAIInstructions
      ∧ (handleAIDrawing st resp).previewVisible = st.previewVisible
      ∧ (handleAIDrawing st resp).drawingAction = st.drawingAction)
    ∧ (∀ l, resp = some l →
      (handleAIDrawing st resp).pendingAIInstructions = some l
      ∧ (handleAIDrawing st resp).previewVisible = true
      ∧ (handleAIDrawing st resp).aiError = none
      ∧ (handleAIDrawing st resp).drawingAction = st.drawingAction)
    ∧ (handleAIDrawing st resp).drawingEnabled = false := by
  refine ⟨fun h => ?_, fun l h => ?_, ?_⟩
  · subst h
    exact ⟨rfl, rfl, rfl, rfl⟩
  · subst h
    by_cases hs : st.selectionBox.isSome <;>
      simp [handleAIDrawing, generateDrawingResult, hs]
  · cases resp with
    | none => rfl
    | some l =>
        by_cases hs : st.selectionBox.isSome <;>
          simp [handleAIDrawing, generateDrawingResult, hs]

/-- C7 witness: an absent `instructions` field yields the visible error
message, leaves the preview state unentered, and disables drawing. -/
theorem c7_validation_amended_witness :
    (handleAIDrawing initState none).aiError = some "No valid instructions were returned."
    ∧ (handleAIDrawing initState none).pendingAIInstructions = none
    ∧ (handleAIDrawing initState none).drawingEnabled = false :=
  ⟨((c7_validation_amended initState none).1 rfl).1,
   ((c7_validation_amended initState none).1 rfl).2.1.trans rfl,
   (c7_validation_amended initState none).2.2⟩

/-- C5: releasing a selection drag marks every action with exactly the
containment bit of its bounding box (freehand-path box for freehand actions,
instruction box otherwise) in the normalised drag rectangle; the attached
`selected` flag is precisely that bit, and for an action with a finite box
the containment bit holds exactly when the box lies fully inside the
rectangle with inclusive bounds, so a box that only partially overlaps the
rectangle leaves the action unselected. -/
theorem c5_selection_release_spec (st : WhiteboardState) (start finish : Pt) :
    (applySelectionBox st start finish).drawingAction
      = st.drawingAction.map (fun item =>
          item.setSelected (boxInSelection item.renderBox
            (min start.x finish.x) (min start.y finish.y)
            (max start.x finish.x) (max start.y finish.y)))
    ∧ (∀ (item : DrawingAction) (b : Bool), (item.setSelected b).selectedField = some b)
    ∧ (∀ (item : DrawingAction) (rb : RatBox), item.renderBox = rb.toBBox →
        (boxInSelection item.renderBox
            (min start.x finish.x) (min start.y finish.y)
            (max start.x finish.x) (max start.y finish.y) = true
          ↔ (min start.x finish.x ≤ rb.minX ∧ rb.maxX ≤ max start.x finish.x
              ∧ min start.y finish.y ≤ rb.minY ∧ rb.maxY ≤ max start.y finish.y))) := by
  refine ⟨rfl, fun item b => ?_, fun item rb h => ?_⟩
  · cases item <;> rfl
  · rw [h]
    simp [boxInSelection, RatBox.toBBox, xge, xle, and_assoc]

/-- C5 witness: the freehand stroke with box `[10,20] × [10,30]` is
contained in the drag rectangle from `(0,0)` to `(100,100)`. -/
theorem c5_selection_release_spec_witness :
    boxInSelection (DrawingAction.freehand c5Freehand).renderBox
      (min (0 : ℚ) 100) (min (0 : ℚ) 100) (max (0 : ℚ) 100) (max (0 : ℚ) 100) = true :=
  ((c5_selection_release_spec initState ⟨0, 0⟩ ⟨100, 100⟩).2.2
      (.freehand c5Freehand) (getFreehandBoundingBox c5Freehand.path) rfl).mpr
    (by refine ⟨by decide, by decide, by decide, by decide⟩)

/-- C2 counterexample: on the list holding a filled rectangle followed by an
erase action overlapping it, the renderer paints exactly what it paints
without the erase action, and issues no clearing operation at all — the
erase action's `clearRect` region is not cleared. -/
theorem c2_erase_counterexample :
    (reDrawPreviousData initCanvas [.instr c2Rect, .erase c2Erase]).surface
      = (reDrawPreviousData initCanvas [.instr c2Rect]).surface
    ∧ (reDrawPreviousData initCanvas [.instr c2Rect, .erase c2Erase]).surface.all
        (fun ev => match ev with
          | .clearRectEv _ _ _ _ => false
          | _ => true) = true := by
  constructor
  · simp only [reDrawPreviousData, clearRect_full]
    decide
  · simp only [reDrawPreviousData, clearRect_full]
    decide

/-- C2 amended: the renderer runs no primitive-paint rule for an `erase`
action — it falls through the `drawFromJSON` default branch — but it does
not clear the `clearRect` sub-rectangle either: an erase action (without a
dynamically attached truthy `selected` flag) contributes nothing to the
repaint, which is the same as if it were absent from the list. -/
theorem c2_erase_noop_amended (c : CanvasState) (pre post : List DrawingAction)
    (e : EraseAction) (h : e.selected.getD false = false) :
    reDrawPreviousData c (pre ++ .erase e :: post)
      = reDrawPreviousData c (pre ++ post) := by
  have hstep : ∀ c0 : CanvasState, reDrawStep c0 (.erase e) = c0 := by
    intro c0
    simp [reDrawStep, drawShapeOf, drawSelBox, drawFromJSON, drawInstr, eraseView,
      DrawingAction.selectedField, h]
  unfold reDrawPreviousData
  rw [List.foldl_append, List.foldl_append, List.foldl_cons, hstep]

/-- C2 witness: rendering the singleton erase list equals rendering the
empty list. -/
theorem c2_erase_noop_amended_witness :
    reDrawPreviousData initCanvas ([] ++ .erase c2Erase :: [])
      = reDrawPreviousData initCanvas ([] ++ []) :=
  c2_erase_noop_amended initCanvas [] [] c2Erase rfl

/-- Folding `ctx.lineTo` over a freehand point list only appends to the
current path. -/
theorem foldl_lineTo_eq (pts : List Pt) (c : CanvasState) :
    pts.foldl (fun c p => c.lineTo (.num p.x) (.num p.y)) c
      = { c with path := c.path ++ pts.map (fun p => PathCmd.lineTo (.num p.x) (.num p.y)) } := by
  induction pts generalizing c with
  | nil => cases c; simp
  | cons p ps ih =>
      rw [List.foldl_cons, ih]
      cases c
      simp [CanvasState.lineTo]

/-- Folding `ctx.lineTo` over a polygon point list only appends to the
current path. -/
theorem foldl_lineToX_eq (pts : List PtX) (c : CanvasState) :
    pts.foldl (fun c p => c.lineTo p.x p.y) c
      = { c with path := c.path ++ pts.map (fun p => PathCmd.lineTo p.x p.y) } := by
  induction pts generalizing c with
  | nil => cases c; simp
  | cons p ps ih =>
      rw [List.foldl_cons, ih]
      cases c
      simp [CanvasState.lineTo]

/-- One `drawFromJSON` iteration never changes the line dash, the global
alpha, the canvas size or the save stack. -/
theorem drawInstr_preserves (c : CanvasState) (i : DrawingInstruction) :
    (drawInstr c i).lineDash = c.lineDash ∧ (drawInstr c i).globalAlpha = c.globalAlpha
      ∧ (drawInstr c i).canvasW = c.canvasW ∧ (drawInstr c i).canvasH = c.canvasH
      ∧ (drawInstr c i).saved = c.saved := by
  unfold drawInstr
  repeat' split
  all_goals
    (simp only [foldl_lineToX_eq]
     simp [CanvasState.setFillStyle, CanvasState.fillRect, CanvasState.beginPath,
       CanvasState.arc, CanvasState.fill, CanvasState.setStrokeStyle,
       CanvasState.setLineWidth, CanvasState.moveTo, CanvasState.lineTo,
       CanvasState.stroke, CanvasState.setFont, CanvasState.fillText,
       CanvasState.closePath])

/-- One `drawFromJSON` iteration appends exactly its `instrEvents` to the
surface. -/
theorem drawInstr_surface (c : CanvasState) (i : DrawingInstruction) :
    (drawInstr c i).surface = instrEvents c.lineDash c.globalAlpha i ++ c.surface := by
  cases hty : i.type
  case rect =>
    simp [drawInstr, instrEvents, hty, CanvasState.setFillStyle, CanvasState.fillRect]
  case circle =>
    simp [drawInstr, instrEvents, hty, CanvasState.setFillStyle, CanvasState.beginPath,
      CanvasState.arc, CanvasState.fill]
  case line =>
    simp [drawInstr, instrEvents, hty, CanvasState.setStrokeStyle,
      CanvasState.setLineWidth, CanvasState.beginPath, CanvasState.moveTo,
      CanvasState.lineTo, CanvasState.stroke]
  case text =>
    simp [drawInstr, instrEvents, hty, CanvasState.setFillStyle, CanvasState.setFont,
      CanvasState.fillText]
  case erase =>
    simp [drawInstr, instrEvents, hty]
  case polygon =>
    rcases hpts : i.points with _ | pts
    · simp [drawInstr, instrEvents, hty, hpts]
    · rcases pts with _ | ⟨p0, rest⟩
      · simp [drawInstr, instrEvents, hty, hpts]
      · by_cases hlen : 2 ≤ (p0 :: rest).length
        · rcases hfill : i.fill with _ | sf <;> rcases hstroke : i.stroke with _ | ss <;>
            (simp only [drawInstr, instrEvents, hty, hpts, hfill, hstroke]
             rw [if_pos hlen, if_pos hlen]
             simp only [foldl_lineToX_eq]
             first
               | (split_ifs <;>
                   simp [polyPath, CanvasState.beginPath, CanvasState.moveTo,
                     CanvasState.closePath, CanvasState.setFillStyle, CanvasState.fill,
                     CanvasState.setStrokeStyle, CanvasState.setLineWidth,
                     CanvasState.stroke])
               | simp [polyPath, CanvasState.beginPath, CanvasState.moveTo,
                   CanvasState.closePath, CanvasState.setFillStyle, CanvasState.fill,
                   CanvasState.setStrokeStyle, CanvasState.setLineWidth,
                   CanvasState.stroke])
        · have hr : rest = [] := by
            cases rest with
            | nil => rfl
            | cons a t =>
                exfalso
                exact hlen (by simp only [List.length_cons]; omega)
          subst hr
          simp [drawInstr, instrEvents, hty, hpts]

/-- The shape half of a repaint iteration never changes the line dash, the
global alpha, the canvas size or the save stack. -/
theorem drawShapeOf_preserves (c : CanvasState) (a : DrawingAction) :
    (drawShapeOf c a).lineDash = c.lineDash ∧ (drawShapeOf c a).globalAlpha = c.globalAlpha
      ∧ (drawShapeOf c a).canvasW = c.canvasW ∧ (drawShapeOf c a).canvasH = c.canvasH
      ∧ (drawShapeOf c a).saved = c.saved := by
  cases a with
  | freehand f =>
      simp only [drawShapeOf, foldl_lineTo_eq]
      simp [CanvasState.beginPath, CanvasState.setStrokeStyle, CanvasState.setLineWidth,
        CanvasState.moveTo, CanvasState.stroke, CanvasState.closePath]
  | erase e =>
      simpa [drawShapeOf, drawFromJSON] using drawInstr_preserves c (eraseView e)
  | instr i =>
      simpa [drawShapeOf, drawFromJSON] using drawInstr_preserves c i

/-- The shape half of a repaint iteration appends exactly its `shapeEvents`
to the surface. -/
theorem drawShapeOf_surface (c : CanvasState) (a : DrawingAction) :
    (drawShapeOf c a).surface = shapeEvents c.lineDash c.globalAlpha a ++ c.surface := by
  cases a with
  | freehand f =>
      simp only [drawShapeOf, foldl_lineTo_eq]
      simp [shapeEvents, freehandStrokePath, CanvasState.beginPath,
        CanvasState.setStrokeStyle, CanvasState.setLineWidth, CanvasState.moveTo,
        CanvasState.stroke, CanvasState.closePath]
  | erase e =>
      simpa [drawShapeOf, drawFromJSON, shapeEvents] using drawInstr_surface c (eraseView e)
  | instr i =>
      simpa [drawShapeOf, drawFromJSON, shapeEvents] using drawInstr_surface c i

/-- The selection-box half of a repaint iteration restores the line dash,
the global alpha and the save stack, and never changes the canvas size. -/
theorem drawSelBox_preserves (c : CanvasState) (a : DrawingAction) :
    (drawSelBox c a).lineDash = c.lineDash ∧ (drawSelBox c a).globalAlpha = c.globalAlpha
      ∧ (drawSelBox c a).canvasW = c.canvasW ∧ (drawSelBox c a).canvasH = c.canvasH
      ∧ (drawSelBox c a).saved = c.saved := by
  unfold drawSelBox
  by_cases h : a.selectedField.getD false <;>
    simp [h, CanvasState.save, CanvasState.setLineDash, CanvasState.setStrokeStyle,
      CanvasState.setLineWidth, CanvasState.strokeRect, CanvasState.restore]

/-- The selection-box half of a repaint iteration appends exactly its
`selEvents` to the surface. -/
theorem drawSelBox_surface (c : CanvasState) (a : DrawingAction) :
    (drawSelBox c a).surface = selEvents c.globalAlpha a ++ c.surface := by
  unfold drawSelBox selEvents
  by_cases h : a.selectedField.getD false <;>
    simp [h, CanvasState.save, CanvasState.setLineDash, CanvasState.setStrokeStyle,
      CanvasState.setLineWidth, CanvasState.strokeRect, CanvasState.restore]

/-- One repaint iteration never changes the line dash, the global alpha, the
canvas size or the save stack. -/
theorem reDrawStep_preserves (c : CanvasState) (a : DrawingAction) :
    (reDrawStep c a).lineDash = c.lineDash ∧ (reDrawStep c a).globalAlpha = c.globalAlpha
      ∧ (reDrawStep c a).canvasW = c.canvasW ∧ (reDrawStep c a).canvasH = c.canvasH := by
  have h1 := drawShapeOf_preserves c a
  have h2 := drawSelBox_preserves (drawShapeOf c a) a
  unfold reDrawStep
  exact ⟨h2.1.trans h1.1, h2.2.1.trans h1.2.1,
    h2.2.2.1.trans h1.2.2.1, h2.2.2.2.1.trans h1.2.2.2.1⟩

/-- One repaint iteration appends exactly its `stepEvents` to the surface,
and those events depend on the context only through its line dash and global
alpha. -/
theorem reDrawStep_surface (c : CanvasState) (a : DrawingAction) :
    (reDrawStep c a).surface = stepEvents c.lineDash c.globalAlpha a ++ c.surface := by
  unfold reDrawStep stepEvents
  rw [drawSelBox_surface, drawShapeOf_surface,
    (drawShapeOf_preserves c a).2.1, List.append_assoc]

/-- Folding the repaint iteration over an action list appends exactly
`actsEvents` to the surface. -/
theorem foldl_reDrawStep_surface (acts : List DrawingAction) (c : CanvasState) :
    (acts.foldl reDrawStep c).surface = actsEvents c.lineDash c.globalAlpha acts ++ c.surface := by
  induction acts generalizing c with
  | nil => simp [actsEvents]
  | cons a rest ih =>
      rw [List.foldl_cons, ih, (reDrawStep_preserves c a).1,
        (reDrawStep_preserves c a).2.1, reDrawStep_surface, actsEvents,
        List.append_assoc]

/-- Folding the repaint iteration preserves line dash, global alpha and the
canvas size. -/
theorem foldl_reDrawStep_preserves (acts : List DrawingAction) (c : CanvasState) :
    (acts.foldl reDrawStep c).lineDash = c.lineDash
      ∧ (acts.foldl reDrawStep c).globalAlpha = c.globalAlpha
      ∧ (acts.foldl reDrawStep c).canvasW = c.canvasW
      ∧ (acts.foldl reDrawStep c).canvasH = c.canvasH := by
  induction acts generalizing c with
  | nil => exact ⟨rfl, rfl, rfl, rfl⟩
  | cons a rest ih =>
      rw [List.foldl_cons]
      have h1 := reDrawStep_preserves c a
      have h2 := ih (reDrawStep c a)
      exact ⟨h2.1.trans h1.1, h2.2.1.trans h1.2.1,
        h2.2.2.1.trans h1.2.2.1, h2.2.2.2.trans h1.2.2.2⟩

/-- The visible surface produced by a full repaint is a function of the
action list and of the entry line dash and global alpha only. -/
theorem reDrawPreviousData_surface (c : CanvasState) (acts : List DrawingAction) :
    (reDrawPreviousData c acts).surface = actsEvents c.lineDash c.globalAlpha acts := by
  unfold reDrawPreviousData
  rw [clearRect_full, foldl_reDrawStep_surface]
  simp

/-- A full repaint preserves line dash, global alpha and the canvas size. -/
theorem reDrawPreviousData_preserves (c : CanvasState) (acts : List DrawingAction) :
    (reDrawPreviousData c acts).lineDash = c.lineDash
      ∧ (reDrawPreviousData c acts).globalAlpha = c.globalAlpha
      ∧ (reDrawPreviousData c acts).canvasW = c.canvasW
      ∧ (reDrawPreviousData c acts).canvasH = c.canvasH := by
  unfold reDrawPreviousData
  rw [clearRect_full]
  have h := foldl_reDrawStep_preserves acts { c with surface := [] }
  simpa using h

/-- C8: the full-repaint function always clears the whole surface first —
its output raster state does not depend on the previous surface contents at
all — and it is idempotent: repainting the same action list on top of its
own output leaves the visible surface unchanged. -/
theorem c8_redraw_idempotent (c : CanvasState) (acts : List DrawingAction) :
    (∀ s : List PaintEvent,
        (reDrawPreviousData { c with surface := s } acts).surface
          = (reDrawPreviousData c acts).surface)
    ∧ (reDrawPreviousData (reDrawPreviousData c acts) acts).surface
        = (reDrawPreviousData c acts).surface := by
  constructor
  · intro s
    rw [reDrawPreviousData_surface, reDrawPreviousData_surface]
  · rw [reDrawPreviousData_surface, reDrawPreviousData_surface,
      (reDrawPreviousData_preserves c acts).1,
      (reDrawPreviousData_preserves c acts).2.1]

/-- JavaScript `Math.min` commutes with translation by a finite offset. -/
theorem xmin_addQ (u v : XVal) (o : ℚ) :
    xmin (xaddQ u o) (xaddQ v o) = xaddQ (xmin u v) o := by
  cases u <;> cases v <;> simp [xmin, xaddQ, xadd, min_add_add_right]

/-- JavaScript `Math.max` commutes with translation by a finite offset. -/
theorem xmax_addQ (u v : XVal) (o : ℚ) :
    xmax (xaddQ u o) (xaddQ v o) = xaddQ (xmax u v) o := by
  cases u <;> cases v <;> simp [xmax, xaddQ, xadd, max_add_add_right]

/-- Folding one translated coordinate sample into a translated box is the
translation of the untranslated fold. -/
theorem foldPt_translate (b : BBox) (vx vy : XVal) (ox oy : ℚ) :
    foldPt (translateBox b ox oy) ⟨xaddQ vx ox, xaddQ vy oy⟩
      = translateBox (foldPt b ⟨vx, vy⟩) ox oy := by
  simp [foldPt, translateBox, xmin_addQ, xmax_addQ]

/-- Folding a translated point list into a translated box is the translation
of the untranslated fold. -/
theorem foldl_foldPt_translate (pts : List PtX) (b : BBox) (ox oy : ℚ) :
    (pts.map (fun p => (⟨xaddQ p.x ox, xaddQ p.y oy⟩ : PtX))).foldl foldPt
        (translateBox b ox oy)
      = translateBox (pts.foldl foldPt b) ox oy := by
  induction pts generalizing b with
  | nil => rfl
  | cons p ps ih =>
      simp only [List.map_cons, List.foldl_cons, foldPt_translate]
      exact ih (foldPt b p)

/-- One conditionally-folded coordinate pair commutes with translation. -/
theorem condFold_translate (b : BBox) (o1 o2 : Option XVal) (ox oy : ℚ) :
    (if (o1.map (fun v => xaddQ v ox)).isSome && (o2.map (fun v => xaddQ v oy)).isSome
     then foldPt (translateBox b ox oy)
       ⟨safe (o1.map (fun v => xaddQ v ox)), safe (o2.map (fun v => xaddQ v oy))⟩
     else translateBox b ox oy)
      = translateBox (if o1.isSome && o2.isSome then foldPt b ⟨safe o1, safe o2⟩ else b)
          ox oy := by
  cases o1 <;> cases o2 <;> simp [safe, foldPt_translate]

/-- One `getBoundingBox` iteration commutes with translation. -/
theorem foldGeom_translate (b : BBox) (g : GeomView) (ox oy : ℚ) :
    foldGeom (translateBox b ox oy) (translateGeom g ox oy)
      = translateBox (foldGeom b g) ox oy := by
  obtain ⟨gx, gy, gx1, gy1, gx2, gy2, gpts⟩ := g
  unfold foldGeom translateGeom
  simp only
  rw [condFold_translate, condFold_translate, condFold_translate]
  rcases gpts with _ | pts
  · rfl
  · simp only [Option.map_some]
    exact foldl_foldPt_translate pts _ ox oy

/-- The `getBoundingBox` fold over translated views is the translated box. -/
theorem getBBoxOfGeoms_translate (gs : List GeomView) (ox oy : ℚ) :
    getBBoxOfGeoms (gs.map (fun g => translateGeom g ox oy))
      = translateBox (getBBoxOfGeoms gs) ox oy := by
  unfold getBBoxOfGeoms
  have hgen : ∀ (gs : List GeomView) (b : BBox),
      (gs.map (fun g => translateGeom g ox oy)).foldl foldGeom (translateBox b ox oy)
        = translateBox (gs.foldl foldGeom b) ox oy := by
    intro gs
    induction gs with
    | nil => intro b; rfl
    | cons g rest ih =>
        intro b
        simp only [List.map_cons, List.foldl_cons, foldGeom_translate]
        exact ih (foldGeom b g)
  exact hgen gs emptyBBox

/-- The JavaScript conditional field shift `if ("x" in s) s.x = safe(s.x) + o`
expressed on optional fields. -/
theorem shOpt_eq (o : Option XVal) (d : XVal) :
    (if o.isSome then some (xadd (safe o) d) else o) = o.map (fun v => xadd v d) := by
  cases o <;> rfl

/-- Shifting an instruction by finite offsets translates its coordinate view
and leaves key presence unchanged. -/
theorem shiftInst_geom (i : DrawingInstruction) (ox oy : ℚ) (fid : String) :
    (shiftInst (.num ox) (.num oy) fid i).geom = translateGeom i.geom ox oy := by
  unfold shiftInst translateGeom DrawingInstruction.geom
  simp only [shOpt_eq]
  rcases hpts : i.points with _ | pts <;> simp [hpts, xaddQ]

/-- The shifted batch has one instruction per pending instruction. -/
theorem placeBatch_length (offX offY : XVal) (f : ℕ → String) (k : ℕ)
    (l : List DrawingInstruction) :
    (placeBatch offX offY f k l).length = l.length := by
  induction l generalizing k with
  | nil => rfl
  | cons i rest ih => simp [placeBatch, ih]

/-- Every instruction of the shifted batch carries `selected = false`. -/
theorem placeBatch_selected (offX offY : XVal) (f : ℕ → String) (k : ℕ)
    (l : List DrawingInstruction) :
    ∀ s ∈ placeBatch offX offY f k l, s.selected = some false := by
  induction l generalizing k with
  | nil => intro s hs; simp [placeBatch] at hs
  | cons i rest ih =>
      intro s hs
      simp only [placeBatch, List.mem_cons] at hs
      rcases hs with rfl | hs
      · rfl
      · exact ih (k + 1) s hs

/-- The coordinate views of the shifted batch are the translated coordinate
views of the pending batch. -/
theorem placeBatch_map_geom (ox oy : ℚ) (f : ℕ → String) (k : ℕ)
    (l : List DrawingInstruction) :
    (placeBatch (.num ox) (.num oy) f k l).map DrawingInstruction.geom
      = (l.map DrawingInstruction.geom).map (fun g => translateGeom g ox oy) := by
  induction l generalizing k with
  | nil => rfl
  | cons i rest ih => simp [placeBatch, shiftInst_geom, ih]

/-- The bounding box of the shifted batch is the translated bounding box of
the pending batch. -/
theorem getBoundingBox_placeBatch (pending : List DrawingInstruction) (ox oy : ℚ)
    (f : ℕ → String) (k : ℕ) :
    getBoundingBox (placeBatch (.num ox) (.num oy) f k pending)
      = translateBox (getBoundingBox pending) ox oy := by
  unfold getBoundingBox
  rw [placeBatch_map_geom, getBBoxOfGeoms_translate]

/-- C4: committing a non-empty pending AI batch with finite bounding box at
click point `pos` appends exactly one instruction per pending instruction to
the action list, all shifted by the single offset that maps the batch's
original bounding-box center to `pos` (so the committed batch's box center
is exactly the click point); each committed instruction has
`selected = false` and keeps its id unless it was empty, in which case it
receives the supplied fresh id; the preview state is exited; and a second
generate-and-place cycle at the same point appends its own independent batch
after the first one, leaving the first batch untouched. -/
theorem c4_place_ai_spec (st : WhiteboardState) (pos : Pt) (freshIds : ℕ → String)
    (pending : List DrawingInstruction)
    (hp : st.pendingAIInstructions = some pending)
    (hne : pending ≠ [])
    (a b cx dy : ℚ)
    (hbox : getBoundingBox pending = ⟨.num a, .num b, .num cx, .num dy⟩) :
    (placeAIInstructions st pos freshIds).drawingAction
        = st.drawingAction ++ (placedBatch pending pos freshIds).map DrawingAction.instr
    ∧ (placedBatch pending pos freshIds).length = pending.length
    ∧ placedBatch pending pos freshIds
        = placeBatch (.num (pos.x - (a + cx) / 2)) (.num (pos.y - (b + dy) / 2))
            freshIds 0 pending
    ∧ (∀ s ∈ placedBatch pending pos freshIds, s.selected = some false)
    ∧ (∀ (offX offY : XVal) (fid : String) (i : DrawingInstruction),
        (shiftInst offX offY fid i).id = if i.id.isEmpty then fid else i.id)
    ∧ getBoundingBox (placedBatch pending pos freshIds)
        = ⟨.num (a + (pos.x - (a + cx) / 2)), .num (b + (pos.y - (b + dy) / 2)),
           .num (cx + (pos.x - (a + cx) / 2)), .num (dy + (pos.y - (b + dy) / 2))⟩
    ∧ xhalf (xadd (.num (a + (pos.x - (a + cx) / 2)))
          (.num (cx + (pos.x - (a + cx) / 2)))) = .num pos.x
    ∧ xhalf (xadd (.num (b + (pos.y - (b + dy) / 2)))
          (.num (dy + (pos.y - (b + dy) / 2)))) = .num pos.y
    ∧ (placeAIInstructions st pos freshIds).pendingAIInstructions = none
    ∧ (placeAIInstructions st pos freshIds).drawingEnabled = true
    ∧ (placeAIInstructions st pos freshIds).previewVisible = false
    ∧ ∀ (pending2 : List DrawingInstruction) (freshIds2 : ℕ → String),
        (placeAIInstructions
            (handleAIDrawing (placeAIInstructions st pos freshIds) (some pending2))
            pos freshIds2).drawingAction
          = st.drawingAction
              ++ (placedBatch pending pos freshIds).map DrawingAction.instr
              ++ (placedBatch pending2 pos freshIds2).map DrawingAction.instr := by
  have hplaced : placedBatch pending pos freshIds
      = placeBatch (.num (pos.x - (a + cx) / 2)) (.num (pos.y - (b + dy) / 2))
          freshIds 0 pending := by
    unfold placedBatch
    rw [hbox]
    simp [xsub, xadd, xneg, xhalf, sub_eq_add_neg]
  have happend : (placeAIInstructions st pos freshIds).drawingAction
      = st.drawingAction ++ (placedBatch pending pos freshIds).map DrawingAction.instr := by
    simp [placeAIInstructions, hp]
  refine ⟨happend, ?_, hplaced, ?_, ?_, ?_, ?_, ?_, ?_, ?_, ?_, ?_⟩
  · rw [hplaced]
    exact placeBatch_length _ _ freshIds 0 pending
  · rw [hplaced]
    exact placeBatch_selected _ _ freshIds 0 pending
  · intro offX offY fid i
    rfl
  · rw [hplaced, getBoundingBox_placeBatch, hbox]
    simp [translateBox, xaddQ, xadd]
  · simp only [xadd, xhalf, XVal.num.injEq]
    ring
  · simp only [xadd, xhalf, XVal.num.injEq]
    ring
  · simp [placeAIInstructions, hp]
  · simp [placeAIInstructions, hp]
  · simp [placeAIInstructions, hp]
  · intro pending2 freshIds2
    by_cases h2 : st.selectionBox.isSome <;>
      simp [handleAIDrawing, generateDrawingResult, placeAIInstructions, placedBatch,
        hp, h2, List.append_assoc]

/-- C4 witness: placing the single-rectangle batch at `(200, 150)` appends
exactly the shifted batch and leaves no pending preview. -/
theorem c4_place_ai_spec_witness :
    (placeAIInstructions { initState with pendingAIInstructions := some [c1Rect] }
        ⟨200, 150⟩ (fun _ => "fresh")).drawingAction
      = ({ initState with pendingAIInstructions := some [c1Rect] } :
            WhiteboardState).drawingAction
          ++ (placedBatch [c1Rect] ⟨200, 150⟩ (fun _ => "fresh")).map DrawingAction.instr
    ∧ (placeAIInstructions { initState with pendingAIInstructions := some [c1Rect] }
        ⟨200, 150⟩ (fun _ => "fresh")).pendingAIInstructions = none :=
  have h := c4_place_ai_spec
    { initState with pendingAIInstructions := some [c1Rect] }
    ⟨200, 150⟩ (fun _ => "fresh") [c1Rect] rfl (List.cons_ne_nil _ _)
    10 10 10 10 (by decide)
  ⟨h.1, h.2.2.2.2.2.2.2.2.1⟩
